import Mathlib

/-!
Verification of the error-reporting core of the pest parsing library
(src/pest/src/error.rs): the Error value with its three variants, rule-list
enumeration, message composition, source-context rendering with underline,
rule renaming, and the short description.

Fallible spots of the Rust code (slice indexing, usize subtraction) are
embedded as Option-valued functions returning none exactly where the Rust
code would panic; machine integers are embedded as Nat, with the partial
subtractions guarded explicitly.
-/

namespace Pest

/-- Modelled from the spec: the external Position contract of section 6,
which this module consumes only through line_col, giving the one-based line
and column, and line_of, giving the text of the containing line without its
terminator. The position module itself is outside the rendering core. -/
structure Position where
  line : Nat
  col : Nat
  lineText : String
deriving DecidableEq

/-- Modelled from the spec: the external Span contract of section 6, an
ordered pair of byte offsets into the input buffer together with the start
boundary position delivered as the first component of split. -/
structure Span where
  startOffset : Nat
  endOffset : Nat
  startPosition : Position
deriving DecidableEq

/-- Translated from the Error enum in src/pest/src/error.rs: a generated
parsing error with positive and negative rule attempts and a position, a
custom error with a message and a position, or a custom error with a message
and a span. -/
inductive Error (R : Type) where
  | ParsingError (positives : List R) (negatives : List R) (pos : Position)
  | CustomErrorPos (message : String) (pos : Position)
  | CustomErrorSpan (message : String) (span : Span)
deriving DecidableEq

/-- Translated from enumerate in src/pest/src/error.rs, which matches on the
slice length with arms 1, 2 and a catch-all l. The result is none exactly
where the Rust code panics: on an empty slice the catch-all computes l - 1
with l = 0, an underflowing usize subtraction, and indexes the slice out of
bounds; every index access is embedded as a checked lookup. -/
def enumerate {R : Type} (rules : List R) (f : R → String) : Option String :=
  match rules.length with
  | 1 => (rules.get? 0).map f
  | 2 =>
      (rules.get? 0).bind (fun a =>
        (rules.get? 1).map (fun b => f a ++ " or " ++ f b))
  | l =>
      if l = 0 then
        none
      else
        let separated := String.intercalate ", " ((rules.take (l - 1)).map (fun r => f r))
        (rules.get? (l - 1)).map (fun last => separated ++ ", or " ++ f last)

/-- Translated from parsing_error_message in src/pest/src/error.rs, branching
on the emptiness of the negative and positive rule lists. -/
def parsing_error_message {R : Type} (positives negatives : List R) (f : R → String) :
    Option String :=
  match negatives.isEmpty, positives.isEmpty with
  | false, false =>
      (enumerate negatives f).bind (fun n =>
        (enumerate positives f).map (fun p => "unexpected " ++ n ++ "; expected " ++ p))
  | false, true => (enumerate negatives f).map (fun n => "unexpected " ++ n)
  | true, false => (enumerate positives f).map (fun p => "expected " ++ p)
  | true, true => some "unknown parsing error"

/-- Translated from message in src/pest/src/error.rs; the parameter dbg
stands for the Debug rendering of a rule that the Rust code obtains from the
formatting machinery. -/
def message {R : Type} (dbg : R → String) : Error R → Option String
  | .ParsingError positives negatives _ => parsing_error_message positives negatives dbg
  | .CustomErrorPos m _ => some m
  | .CustomErrorSpan m _ => some m

/-- Translated from underline in src/pest/src/error.rs: offset spaces, then
the variant marker. The result is none exactly where the Rust code panics:
the usize subtraction of the span start from the span end underflows when
the span is reversed. The dash loop runs from 2 up to the span width, hence
width minus two dashes. -/
def underline {R : Type} (error : Error R) (offset : Nat) : Option String :=
  let u := String.mk (List.replicate offset ' ')
  match error with
  | .CustomErrorSpan _ span =>
      if span.endOffset < span.startOffset then
        none
      else if span.endOffset - span.startOffset > 1 then
        some (u ++ "^" ++ String.mk (List.replicate (span.endOffset - span.startOffset - 2) '-')
          ++ "^")
      else
        some (u ++ "^")
  | _ => some (u ++ "^---")

/-- Translated from the position resolution at the head of format in
src/pest/src/error.rs: the stored pos for ParsingError and CustomErrorPos,
and the first component of split, the start boundary, for CustomErrorSpan. -/
def anchorPos {R : Type} : Error R → Position
  | .ParsingError _ _ pos => pos
  | .CustomErrorPos _ pos => pos
  | .CustomErrorSpan _ span => span.startPosition

/-- Translated from format in src/pest/src/error.rs, which builds the report
by successive push_str calls. The result is none exactly where the Rust code
panics: the usize subtraction col - 1 underflows when col = 0, and a panic
inside underline or message propagates. -/
def format {R : Type} (dbg : R → String) (error : Error R) : Option String :=
  let pos := anchorPos error
  let line := pos.line
  let col := pos.col
  let lineStrLen := (toString line).length
  let spacing := String.mk (List.replicate lineStrLen ' ')
  if col = 0 then
    none
  else
    (underline error (col - 1)).bind (fun u =>
      (message dbg error).map (fun m =>
        let result := spacing ++ "--> " ++ toString line ++ ":" ++ toString col ++ "\n"
        let result := result ++ (spacing ++ " |\n")
        let result := result ++ (toString line ++ " | ")
        let result := result ++ (pos.lineText ++ "\n")
        let result := result ++ (spacing ++ " | " ++ u ++ "\n")
        let result := result ++ (spacing ++ " |\n")
        let result := result ++ (spacing ++ " = " ++ m)
        result))

/-- Translated from renamed_rules in src/pest/src/error.rs: a ParsingError
becomes a CustomErrorPos whose message is built by parsing_error_message
with the supplied renderer, keeping the position; the other variants are
returned unchanged. -/
def renamed_rules {R : Type} (error : Error R) (f : R → String) : Option (Error R) :=
  match error with
  | .ParsingError positives negatives pos =>
      (parsing_error_message positives negatives f).map
        (fun m => Error.CustomErrorPos m pos)
  | e => some e

/-- Translated from the description method of the Error trait implementation
in src/pest/src/error.rs. -/
def description {R : Type} : Error R → String
  | .ParsingError _ _ _ => "parsing error"
  | .CustomErrorPos m _ => m
  | .CustomErrorSpan m _ => m

/-- Wellformedness of a position per the external contract: line and column
are one-based. -/
def Position.WF (p : Position) : Prop := 1 ≤ p.line ∧ 1 ≤ p.col

/-- Wellformedness of a span per the external contract: ordered offsets and
a wellformed start boundary position. -/
def Span.WF (s : Span) : Prop :=
  s.startOffset ≤ s.endOffset ∧ s.startPosition.WF

/-- Wellformedness of an error value: every position it holds satisfies the
position contract and every span satisfies the span contract. -/
def Error.WF {R : Type} : Error R → Prop
  | .ParsingError _ _ pos => pos.WF
  | .CustomErrorPos _ pos => pos.WF
  | .CustomErrorSpan _ span => span.WF

/-! Helper lemmas shared by the claim theorems. -/

theorem enumerate_cons3 {R : Type} (a b c : R) (t : List R) (f : R → String) :
    enumerate (a :: b :: c :: t) f
      = ((a :: b :: c :: t).get? (t.length + 2)).map
          (fun last =>
            String.intercalate ", " (((a :: b :: c :: t).take (t.length + 2)).map (fun r => f r))
              ++ ", or " ++ f last) :=
  rfl

theorem enumerate_isSome {R : Type} (rules : List R) (f : R → String) (h : rules ≠ []) :
    ∃ s, enumerate rules f = some s := by
  rcases rules with _ | ⟨a, _ | ⟨b, _ | ⟨c, t⟩⟩⟩
  · exact absurd rfl h
  · exact ⟨f a, rfl⟩
  · exact ⟨f a ++ " or " ++ f b, rfl⟩
  · have hlt : t.length + 2 < (a :: b :: c :: t).length := by simp
    rw [enumerate_cons3, List.get?_eq_getElem?, List.getElem?_eq_getElem hlt]
    exact ⟨_, rfl⟩

theorem parsing_error_message_nil_nil {R : Type} (f : R → String) :
    parsing_error_message ([] : List R) [] f = some "unknown parsing error" :=
  rfl

theorem parsing_error_message_cons_nil {R : Type} (p0 : R) (pt : List R) (f : R → String) :
    parsing_error_message (p0 :: pt) [] f
      = (enumerate (p0 :: pt) f).map (fun p => "expected " ++ p) :=
  rfl

theorem parsing_error_message_nil_cons {R : Type} (n0 : R) (nt : List R) (f : R → String) :
    parsing_error_message ([] : List R) (n0 :: nt) f
      = (enumerate (n0 :: nt) f).map (fun n => "unexpected " ++ n) :=
  rfl

theorem parsing_error_message_cons_cons {R : Type} (p0 n0 : R) (pt nt : List R)
    (f : R → String) :
    parsing_error_message (p0 :: pt) (n0 :: nt) f
      = (enumerate (n0 :: nt) f).bind (fun n =>
          (enumerate (p0 :: pt) f).map (fun p =>
            "unexpected " ++ n ++ "; expected " ++ p)) :=
  rfl

theorem parsing_error_message_isSome {R : Type} (positives negatives : List R)
    (f : R → String) : ∃ m, parsing_error_message positives negatives f = some m := by
  rcases negatives with _ | ⟨n0, nt⟩ <;> rcases positives with _ | ⟨p0, pt⟩
  · exact ⟨_, parsing_error_message_nil_nil f⟩
  · obtain ⟨p, hp⟩ := enumerate_isSome (p0 :: pt) f (by simp)
    exact ⟨_, by rw [parsing_error_message_cons_nil, hp]; rfl⟩
  · obtain ⟨n, hn⟩ := enumerate_isSome (n0 :: nt) f (by simp)
    exact ⟨_, by rw [parsing_error_message_nil_cons, hn]; rfl⟩
  · obtain ⟨n, hn⟩ := enumerate_isSome (n0 :: nt) f (by simp)
    obtain ⟨p, hp⟩ := enumerate_isSome (p0 :: pt) f (by simp)
    exact ⟨_, by rw [parsing_error_message_cons_cons, hn, hp]; rfl⟩

theorem message_isSome {R : Type} (dbg : R → String) (e : Error R) :
    ∃ m, message dbg e = some m := by
  rcases e with ⟨positives, negatives, pos⟩ | ⟨m, pos⟩ | ⟨m, sp⟩
  · exact parsing_error_message_isSome positives negatives dbg
  · exact ⟨m, rfl⟩
  · exact ⟨m, rfl⟩

theorem underline_point {R : Type} (e : Error R) (offset : Nat)
    (h : ∀ m sp, e ≠ Error.CustomErrorSpan m sp) :
    underline e offset = some (String.mk (List.replicate offset ' ') ++ "^---") := by
  rcases e with ⟨positives, negatives, pos⟩ | ⟨m, pos⟩ | ⟨m, sp⟩
  · rfl
  · rfl
  · exact absurd rfl (h m sp)

theorem underline_span_wide {R : Type} (msg : String) (sp : Span) (offset : Nat)
    (hle : sp.startOffset ≤ sp.endOffset) (hw : 1 < sp.endOffset - sp.startOffset) :
    underline (Error.CustomErrorSpan msg sp : Error R) offset
      = some (String.mk (List.replicate offset ' ') ++ "^"
          ++ String.mk (List.replicate (sp.endOffset - sp.startOffset - 2) '-') ++ "^") := by
  simp only [underline]
  rw [if_neg (show ¬ sp.endOffset < sp.startOffset by omega), if_pos hw]

theorem underline_span_narrow {R : Type} (msg : String) (sp : Span) (offset : Nat)
    (hle : sp.startOffset ≤ sp.endOffset) (hw : sp.endOffset - sp.startOffset ≤ 1) :
    underline (Error.CustomErrorSpan msg sp : Error R) offset
      = some (String.mk (List.replicate offset ' ') ++ "^") := by
  simp only [underline]
  rw [if_neg (show ¬ sp.endOffset < sp.startOffset by omega),
    if_neg (show ¬ sp.endOffset - sp.startOffset > 1 by omega)]

theorem underline_isSome {R : Type} (e : Error R) (offset : Nat) (h : e.WF) :
    ∃ u, underline e offset = some u := by
  rcases e with ⟨positives, negatives, pos⟩ | ⟨m, pos⟩ | ⟨m, sp⟩
  · exact ⟨_, underline_point _ offset (by intro m sp hc; cases hc)⟩
  · exact ⟨_, underline_point _ offset (by intro m sp hc; cases hc)⟩
  · rcases Nat.lt_or_ge 1 (sp.endOffset - sp.startOffset) with hw | hw
    · exact ⟨_, underline_span_wide m sp offset h.1 hw⟩
    · exact ⟨_, underline_span_narrow m sp offset h.1 hw⟩

theorem anchorPos_WF {R : Type} (e : Error R) (h : e.WF) : (anchorPos e).WF := by
  rcases e with ⟨positives, negatives, pos⟩ | ⟨m, pos⟩ | ⟨m, sp⟩
  · exact h
  · exact h
  · exact h.2

theorem get?_length_sub_one_eq_getLast {R : Type} (l : List R) (h : l ≠ []) :
    l.get? (l.length - 1) = some (l.getLast h) := by
  rw [List.get?_eq_getElem?, ← List.getLast?_eq_getElem?, List.getLast?_eq_getLast l h]

/-- Follows the spec (section 4.4) word for word: the six rows of the
report, in order, where the gutter is a run of spaces whose length is the
decimal digit count of the line number, u is the underline and m the
extracted message. Stated from the spec in order to compare the report
shape that format produces against the shape the spec prescribes. -/
def specReportRows (line col : Nat) (lineText u m : String) : List String :=
  let g := String.mk (List.replicate (toString line).length ' ')
  [g ++ "--> " ++ toString line ++ ":" ++ toString col,
    g ++ " |",
    toString line ++ " | " ++ lineText,
    g ++ " | " ++ u,
    g ++ " |",
    g ++ " = " ++ m]

/-- Follows the spec (section 4.4): the six report rows joined by a single
newline with no trailing newline. -/
def specReport (line col : Nat) (lineText u m : String) : String :=
  String.intercalate "\n" (specReportRows line col lineText u m)

theorem intercalate_six (a b c d e f : String) :
    String.intercalate "\n" [a, b, c, d, e, f]
      = a ++ "\n" ++ b ++ "\n" ++ c ++ "\n" ++ d ++ "\n" ++ e ++ "\n" ++ f :=
  rfl

theorem rows_join (g l c txt u m : String) :
    g ++ "--> " ++ l ++ ":" ++ c ++ "\n" ++ (g ++ " |\n") ++ (l ++ " | ") ++ (txt ++ "\n")
        ++ (g ++ " | " ++ u ++ "\n") ++ (g ++ " |\n") ++ (g ++ " = " ++ m)
      = String.intercalate "\n"
          [g ++ "--> " ++ l ++ ":" ++ c, g ++ " |", l ++ " | " ++ txt,
            g ++ " | " ++ u, g ++ " |", g ++ " = " ++ m] := by
  rw [intercalate_six]
  simp only [show (" |\n" : String) = " |" ++ "\n" from rfl]
  simp only [String.append_assoc]

theorem format_eq_rows {R : Type} (e : Error R) (dbg : R → String) (h : e.WF) :
    ∃ u m, underline e ((anchorPos e).col - 1) = some u ∧ message dbg e = some m ∧
      format dbg e
        = some (specReport (anchorPos e).line (anchorPos e).col (anchorPos e).lineText u m) := by
  obtain ⟨u, hu⟩ := underline_isSome e ((anchorPos e).col - 1) h
  obtain ⟨m, hm⟩ := message_isSome dbg e
  have hcol : ¬ (anchorPos e).col = 0 := by
    have := (anchorPos_WF e h).2
    omega
  refine ⟨u, m, hu, hm, ?_⟩
  unfold format
  rw [if_neg hcol, hu, Option.some_bind, hm, Option.map_some']
  unfold specReport specReportRows
  exact congrArg some (rows_join _ _ _ _ _ _)

/-! The claim theorems. -/

/-- C1: for every error value of the three defined variants whose position
satisfies line and col at least one and whose span satisfies start at most
end, rendering (format, message extraction, underline) and renaming are
total: none of them hits a panic branch, so none of them is none; in
particular the message of a ParsingError is always built, meaning enumerate
is never invoked on an empty list, and the guarded subtractions col - 1 and
end - start never underflow. -/
theorem rendering_and_renaming_total {R : Type} (e : Error R) (dbg f : R → String)
    (h : e.WF) :
    (format dbg e).isSome ∧ (message dbg e).isSome
      ∧ (underline e ((anchorPos e).col - 1)).isSome
      ∧ (renamed_rules e f).isSome
      ∧ (∀ positives negatives pos, e = Error.ParsingError positives negatives pos →
          (parsing_error_message positives negatives dbg).isSome) := by
  obtain ⟨u, m, hu, hm, hf⟩ := format_eq_rows e dbg h
  refine ⟨by rw [hf]; rfl, by rw [hm]; rfl, by rw [hu]; rfl, ?_, ?_⟩
  · rcases e with ⟨positives, negatives, pos⟩ | ⟨mm, pos⟩ | ⟨mm, sp⟩
    · obtain ⟨m2, hm2⟩ := parsing_error_message_isSome positives negatives f
      simp [renamed_rules, hm2]
    · rfl
    · rfl
  · rintro positives negatives pos rfl
    obtain ⟨m2, hm2⟩ := parsing_error_message_isSome positives negatives dbg
    rw [hm2]
    rfl

theorem rendering_and_renaming_total_witness :
    (format (fun s => s)
        (Error.ParsingError ["a", "b", "c"] ["d"] ⟨2, 2, "cd"⟩ : Error String)).isSome
      ∧ (renamed_rules
          (Error.ParsingError ["a", "b", "c"] ["d"] ⟨2, 2, "cd"⟩ : Error String)
          (fun s => s)).isSome := by
  have h := rendering_and_renaming_total
    (Error.ParsingError ["a", "b", "c"] ["d"] ⟨2, 2, "cd"⟩ : Error String)
    (fun s => s) (fun s => s) ⟨by decide, by decide⟩
  exact ⟨h.1, h.2.2.2.1⟩

/-- C2: for every wellformed error record, the report that format produces
is exactly the six rows of the spec, joined by a single newline with no
trailing newline, anchored at the line and column of the anchor position,
and its gutter is a run of spaces whose length is the decimal digit count
of the line number. -/
theorem format_six_rows {R : Type} (e : Error R) (dbg : R → String) (h : e.WF) :
    ∃ u m, underline e ((anchorPos e).col - 1) = some u ∧ message dbg e = some m
      ∧ format dbg e
          = some (specReport (anchorPos e).line (anchorPos e).col (anchorPos e).lineText u m)
      ∧ (String.mk (List.replicate (toString (anchorPos e).line).length ' ')).length
          = (toString (anchorPos e).line).length := by
  obtain ⟨u, m, hu, hm, hf⟩ := format_eq_rows e dbg h
  exact ⟨u, m, hu, hm, hf, by simp⟩

theorem format_six_rows_witness :
    format (fun s => s) (Error.CustomErrorPos "big one" ⟨2, 2, "cd"⟩ : Error String)
      = some " --> 2:2\n  |\n2 | cd\n  |  ^---\n  |\n  = big one" := by
  obtain ⟨u, m, hu, hm, hf, -⟩ := format_six_rows
    (Error.CustomErrorPos "big one" ⟨2, 2, "cd"⟩ : Error String) (fun s => s)
    ⟨by decide, by decide⟩
  have hu2 : u = " ^---" := Option.some.inj
    (hu.symm.trans (show underline (Error.CustomErrorPos "big one" ⟨2, 2, "cd"⟩ : Error String) 1
        = some " ^---" by decide))
  have hm2 : m = "big one" := Option.some.inj
    (hm.symm.trans (show message (fun s => s)
        (Error.CustomErrorPos "big one" ⟨2, 2, "cd"⟩ : Error String)
        = some "big one" by decide))
  subst hu2
  subst hm2
  exact hf.trans (by decide)

/-- C3: for all rule lists and every render function, parsing_error_message
returns the unexpected and expected message when both lists are non-empty,
only the unexpected part when positives is empty, only the expected part
when negatives is empty, and the unknown parsing error fallback when both
are empty, with the lists rendered by enumerate. -/
theorem parsing_error_message_cases {R : Type} (positives negatives : List R)
    (f : R → String) :
    (negatives ≠ [] → positives ≠ [] → ∃ n p, enumerate negatives f = some n
        ∧ enumerate positives f = some p
        ∧ parsing_error_message positives negatives f
            = some ("unexpected " ++ n ++ "; expected " ++ p))
      ∧ (negatives ≠ [] → positives = [] → ∃ n, enumerate negatives f = some n
          ∧ parsing_error_message positives negatives f = some ("unexpected " ++ n))
      ∧ (negatives = [] → positives ≠ [] → ∃ p, enumerate positives f = some p
          ∧ parsing_error_message positives negatives f = some ("expected " ++ p))
      ∧ (negatives = [] → positives = []
          → parsing_error_message positives negatives f = some "unknown parsing error") := by
  refine ⟨?_, ?_, ?_, ?_⟩
  · intro hn hp
    rcases negatives with _ | ⟨n0, nt⟩
    · exact absurd rfl hn
    rcases positives with _ | ⟨p0, pt⟩
    · exact absurd rfl hp
    obtain ⟨n, hn2⟩ := enumerate_isSome (n0 :: nt) f (by simp)
    obtain ⟨p, hp2⟩ := enumerate_isSome (p0 :: pt) f (by simp)
    exact ⟨n, p, hn2, hp2, by rw [parsing_error_message_cons_cons, hn2, hp2]; rfl⟩
  · intro hn hp
    subst hp
    rcases negatives with _ | ⟨n0, nt⟩
    · exact absurd rfl hn
    obtain ⟨n, hn2⟩ := enumerate_isSome (n0 :: nt) f (by simp)
    exact ⟨n, hn2, by rw [parsing_error_message_nil_cons, hn2]; rfl⟩
  · intro hn hp
    subst hn
    rcases positives with _ | ⟨p0, pt⟩
    · exact absurd rfl hp
    obtain ⟨p, hp2⟩ := enumerate_isSome (p0 :: pt) f (by simp)
    exact ⟨p, hp2, by rw [parsing_error_message_cons_nil, hp2]; rfl⟩
  · rintro rfl rfl
    rfl

theorem parsing_error_message_cases_witness :
    parsing_error_message ["a"] ["b"] (fun s => s) = some "unexpected b; expected a" := by
  obtain ⟨n, p, hn, hp, hr⟩ :=
    (parsing_error_message_cases ["a"] ["b"] (fun s => s)).1 (by simp) (by simp)
  have hn2 : n = "b" := Option.some.inj
    (hn.symm.trans (show enumerate ["b"] (fun s => s) = some "b" from rfl))
  have hp2 : p = "a" := Option.some.inj
    (hp.symm.trans (show enumerate ["a"] (fun s => s) = some "a" from rfl))
  subst hn2
  subst hp2
  exact hr.trans (by decide)

/-- C4: for every non-empty rule list and every render function, enumerate
returns the single render for length one, the two renders joined by the word
or for length two, and for length at least three the renders of all items
but the last joined by comma-space followed by comma-space, the word or and
the render of the last item. -/
theorem enumerate_connectives {R : Type} (rules : List R) (f : R → String)
    (h : rules ≠ []) :
    (∀ a, rules = [a] → enumerate rules f = some (f a))
      ∧ (∀ a b, rules = [a, b] → enumerate rules f = some (f a ++ " or " ++ f b))
      ∧ (3 ≤ rules.length →
          enumerate rules f
            = some (String.intercalate ", " (rules.dropLast.map (fun r => f r))
                ++ ", or " ++ f (rules.getLast h))) := by
  refine ⟨?_, ?_, ?_⟩
  · rintro a rfl
    rfl
  · rintro a b rfl
    rfl
  · intro h3
    rcases rules with _ | ⟨a, _ | ⟨b, _ | ⟨c, t⟩⟩⟩
    · exact absurd rfl h
    · simp at h3
    · simp at h3
    · have hl : t.length + 2 = (a :: b :: c :: t).length - 1 := by simp
      rw [enumerate_cons3, hl, get?_length_sub_one_eq_getLast _ h, Option.map_some',
        ← List.dropLast_eq_take]

theorem enumerate_connectives_witness :
    enumerate ["a", "b", "c"] (fun s => s) = some "a, b, or c" := by
  have h := (enumerate_connectives ["a", "b", "c"] (fun s => s) (by simp)).2.2 (by simp)
  exact h.trans (by decide)

/-- C5: renamed_rules maps a ParsingError with positives, negatives and pos
to a CustomErrorPos whose message is parsing_error_message applied to the
same lists with the supplied renderer and whose position is the same pos,
and it is the identity on CustomErrorPos and CustomErrorSpan. -/
theorem renamed_rules_cases {R : Type} (e : Error R) (f : R → String) :
    (∀ positives negatives pos, e = Error.ParsingError positives negatives pos →
        ∃ m, parsing_error_message positives negatives f = some m
          ∧ renamed_rules e f = some (Error.CustomErrorPos m pos))
      ∧ (∀ m pos, e = Error.CustomErrorPos m pos → renamed_rules e f = some e)
      ∧ (∀ m sp, e = Error.CustomErrorSpan m sp → renamed_rules e f = some e) := by
  refine ⟨?_, ?_, ?_⟩
  · rintro positives negatives pos rfl
    obtain ⟨m, hm⟩ := parsing_error_message_isSome positives negatives f
    exact ⟨m, hm, by simp [renamed_rules, hm]⟩
  · rintro m pos rfl
    rfl
  · rintro m sp rfl
    rfl

theorem renamed_rules_cases_witness :
    renamed_rules (Error.ParsingError ["x"] ["y"] ⟨1, 1, "t"⟩ : Error String) (fun s => s)
      = some (Error.CustomErrorPos "unexpected y; expected x" ⟨1, 1, "t"⟩) := by
  obtain ⟨m, hm, hr⟩ :=
    (renamed_rules_cases (Error.ParsingError ["x"] ["y"] ⟨1, 1, "t"⟩ : Error String)
      (fun s => s)).1 ["x"] ["y"] ⟨1, 1, "t"⟩ rfl
  have hm2 : m = "unexpected y; expected x" := Option.some.inj
    (hm.symm.trans (show parsing_error_message ["x"] ["y"] (fun s => s)
        = some "unexpected y; expected x" by decide))
  subst hm2
  exact hr

/-- C6 counterexample: called with the column value 1, underline on a
positioned custom error yields one leading space before the marker, not the
zero spaces that the column minus one of the claim would give. -/
theorem underline_column_counterexample :
    underline (Error.CustomErrorPos "m" ⟨1, 1, "x"⟩ : Error String) 1 = some " ^---"
      ∧ underline (Error.CustomErrorPos "m" ⟨1, 1, "x"⟩ : Error String) 1 ≠ some "^---" := by
  constructor
  · rfl
  · decide

/-- C6 (amended): for every wellformed error record and every offset value,
underline returns a string beginning with exactly offset space characters
before the variant marker, which starts with a caret; and the fourth row of
the report embeds underline rendered at offset col - 1 after the gutter and
the vertical-bar prefix. -/
theorem underline_offset_spaces {R : Type} (e : Error R) (dbg : R → String)
    (offset : Nat) (h : e.WF) :
    (∃ mk, underline e offset = some (String.mk (List.replicate offset ' ') ++ mk)
        ∧ mk.data.head? = some '^')
      ∧ (∃ u m, underline e ((anchorPos e).col - 1) = some u ∧ message dbg e = some m
          ∧ format dbg e
              = some (specReport (anchorPos e).line (anchorPos e).col (anchorPos e).lineText u m)
          ∧ (specReportRows (anchorPos e).line (anchorPos e).col (anchorPos e).lineText u m).get? 3
              = some (String.mk (List.replicate (toString (anchorPos e).line).length ' ')
                  ++ " | " ++ u)) := by
  constructor
  · rcases e with ⟨positives, negatives, pos⟩ | ⟨m, pos⟩ | ⟨m, sp⟩
    · exact ⟨"^---", underline_point _ offset (fun _ _ hc => Error.noConfusion hc), rfl⟩
    · exact ⟨"^---", underline_point _ offset (fun _ _ hc => Error.noConfusion hc), rfl⟩
    · rcases Nat.lt_or_ge 1 (sp.endOffset - sp.startOffset) with hw | hw
      · refine ⟨"^" ++ String.mk (List.replicate (sp.endOffset - sp.startOffset - 2) '-')
          ++ "^", ?_, ?_⟩
        · rw [underline_span_wide m sp offset h.1 hw]
          simp [String.append_assoc]
        · have hc : ("^" : String).data = ['^'] := rfl
          simp [hc]
      · exact ⟨"^", underline_span_narrow m sp offset h.1 hw, rfl⟩
  · obtain ⟨u, m, hu, hm, hf⟩ := format_eq_rows e dbg h
    exact ⟨u, m, hu, hm, hf, rfl⟩

theorem underline_offset_spaces_witness :
    ∃ mk, underline (Error.CustomErrorPos "m" ⟨2, 2, "cd"⟩ : Error String) 3
        = some (String.mk (List.replicate 3 ' ') ++ mk) ∧ mk.data.head? = some '^' :=
  (underline_offset_spaces (Error.CustomErrorPos "m" ⟨2, 2, "cd"⟩ : Error String)
    (fun s => s) 3 ⟨by decide, by decide⟩).1

/-- C7: for every span-carrying record with ordered offsets and width w
equal to end minus start, the underline marker is a caret, w - 2 dashes and
a caret, exactly w characters in total, when w exceeds one, and a single
caret when w is at most one. -/
theorem underline_span_markers {R : Type} (msg : String) (sp : Span) (offset : Nat)
    (h : sp.startOffset ≤ sp.endOffset) :
    (1 < sp.endOffset - sp.startOffset →
        underline (Error.CustomErrorSpan msg sp : Error R) offset
          = some (String.mk (List.replicate offset ' ')
              ++ ("^" ++ String.mk (List.replicate (sp.endOffset - sp.startOffset - 2) '-')
                ++ "^"))
        ∧ ("^" ++ String.mk (List.replicate (sp.endOffset - sp.startOffset - 2) '-')
            ++ "^").length = sp.endOffset - sp.startOffset)
      ∧ (sp.endOffset - sp.startOffset ≤ 1 →
          underline (Error.CustomErrorSpan msg sp : Error R) offset
            = some (String.mk (List.replicate offset ' ') ++ "^")) := by
  constructor
  · intro hw
    constructor
    · rw [underline_span_wide msg sp offset h hw]
      simp [String.append_assoc]
    · have h1 : ("^" : String).length = 1 := rfl
      simp only [String.length_append, String.length_mk, List.length_replicate, h1]
      omega
  · intro hw
    exact underline_span_narrow msg sp offset h hw

theorem underline_span_markers_witness :
    underline (Error.CustomErrorSpan "m" ⟨3, 8, ⟨1, 1, "t"⟩⟩ : Error String) 0
      = some "^---^" := by
  have h := (underline_span_markers (R := String) "m" ⟨3, 8, ⟨1, 1, "t"⟩⟩ 0
    (by decide)).1 (by decide)
  exact h.1.trans (by decide)

/-- C8: for every record that is not span-carrying, the underline marker is
the fixed four-character literal caret dash dash dash, independent of the
rule lists and the message. -/
theorem underline_point_marker {R : Type} (e : Error R) (offset : Nat)
    (h : ∀ m sp, e ≠ Error.CustomErrorSpan m sp) :
    underline e offset = some (String.mk (List.replicate offset ' ') ++ "^---") :=
  underline_point e offset h

theorem underline_point_marker_witness :
    underline (Error.CustomErrorPos "m" ⟨1, 1, "t"⟩ : Error String) 2 = some "  ^---" := by
  have h := underline_point_marker (Error.CustomErrorPos "m" ⟨1, 1, "t"⟩ : Error String) 2
    (fun _ _ hc => Error.noConfusion hc)
  exact h.trans (by decide)

/-- C9: description returns the fixed string parsing error on a
ParsingError and the stored message verbatim on CustomErrorPos and
CustomErrorSpan. -/
theorem description_contract {R : Type} (positives negatives : List R) (pos : Position)
    (m : String) (sp : Span) :
    description (Error.ParsingError positives negatives pos) = "parsing error"
      ∧ description (Error.CustomErrorPos m pos : Error R) = m
      ∧ description (Error.CustomErrorSpan m sp : Error R) = m :=
  ⟨rfl, rfl, rfl⟩

/-- C10: renaming is idempotent in shape: renaming the result of a rename
with any second renderer returns that result unchanged, because the first
rename never yields a ParsingError. -/
theorem renamed_rules_idempotent {R : Type} (e : Error R) (f g : R → String) :
    (renamed_rules e f).bind (fun e2 => renamed_rules e2 g) = renamed_rules e f := by
  rcases e with ⟨positives, negatives, pos⟩ | ⟨m, pos⟩ | ⟨m, sp⟩
  · obtain ⟨m, hm⟩ := parsing_error_message_isSome positives negatives f
    simp [renamed_rules, hm]
  · rfl
  · rfl

end Pest
